import Mathlib

/-!
Shallow embedding of src/include/domain_restricted_variable.hpp.

The C++ library stores allowed values in a std::set and hands out
DomainRestrictedVariable handles that hold a raw pointer (m_value) to one
stored element, or nullptr when empty.  Element identity in C++ is the
address of the stored node; we model an identity as a Nat token.  A
VariableDomain is an association list from tokens to values together with a
fresh-token counter (addresses are never reused while the element lives; a
fresh insertion gets a fresh token).  The subscriber registry
m_managed_variables of domain d is represented implicitly: it is the set of
handles whose m_domain field is d and whose subscribed flag is true
(subscribeVariable / unsubscribeVariable in the source are always called on
the handle's current domain, so the flag representation is exact).

Several spots of the source are ill-typed as written and are translated by
their only well-typed reading consistent with the rest of the class:
  * removeAllowedValue tests "value == m_allowed_values.end()"; the intended
    test is "iter == m_allowed_values.end()" (the found iterator).
  * deletionNotice(iter) / replacementNotice(iter, pair.first) pass set
    iterators where value_type* is expected; the identity passed is the
    address of the element the iterator designates.
  * the value constructor initialises m_value from a set lookup; since
    has_value() tests m_value != nullptr and clear() writes nullptr, a
    failed lookup (end iterator) corresponds to the empty slot (none).
-/

structure VariableDomain (V : Type) where
  m_allowed_values : List (Nat × V)
  nextId : Nat
deriving DecidableEq

structure DomainRestrictedVariable where
  m_domain : Nat
  m_value : Option Nat
  subscribed : Bool
deriving DecidableEq

structure World (V : Type) where
  domains : List (VariableDomain V)
  handles : List DomainRestrictedVariable
deriving DecidableEq

variable {V : Type} [DecidableEq V]

/-- std::set find: the token of the (unique) stored element equal to v. -/
def VariableDomain.findId (d : VariableDomain V) (v : V) : Option Nat :=
  (d.m_allowed_values.find? (fun p => p.2 = v)).map Prod.fst

/-- Source isAllowedValue: membership test, find != end. -/
def VariableDomain.isAllowedValue (d : VariableDomain V) (v : V) : Bool :=
  (d.findId v).isSome

/-- Dereference an identity token: the value stored under it, if live. -/
def VariableDomain.lookupTok (d : VariableDomain V) (t : Nat) : Option V :=
  (d.m_allowed_values.find? (fun p => p.1 = t)).map Prod.snd

/-- std::set insert: returns (set, iterator-token, inserted?).  If an equal
element exists its identity is reused and nothing is added. -/
def VariableDomain.insertVal (d : VariableDomain V) (v : V) :
    VariableDomain V × Nat × Bool :=
  match d.findId v with
  | some t => (d, t, false)
  | none =>
    ({ m_allowed_values := d.m_allowed_values ++ [(d.nextId, v)],
       nextId := d.nextId + 1 }, d.nextId, true)

/-- std::set erase(iterator): drop the element with the given identity. -/
def VariableDomain.eraseTok (d : VariableDomain V) (t : Nat) : VariableDomain V :=
  { d with m_allowed_values := d.m_allowed_values.filter (fun p => ¬ p.1 = t) }

/-- Handle-side deletionNotice: if m_value == to_delete then clear(). -/
def DomainRestrictedVariable.deletionNotice
    (h : DomainRestrictedVariable) (tok : Nat) : DomainRestrictedVariable :=
  if h.m_value = some tok then { h with m_value := none } else h

/-- Handle-side replacementNotice: if m_value == to_replace then
m_value = replacement. -/
def DomainRestrictedVariable.replacementNotice
    (h : DomainRestrictedVariable) (oldTok newTok : Nat) : DomainRestrictedVariable :=
  if h.m_value = some oldTok then { h with m_value := some newTok } else h

/-- has_value(): m_value != nullptr. -/
def DomainRestrictedVariable.has_value (h : DomainRestrictedVariable) : Bool :=
  h.m_value.isSome

/-- clear(): m_value = nullptr. -/
def DomainRestrictedVariable.clear (h : DomainRestrictedVariable) : DomainRestrictedVariable :=
  { h with m_value := none }

def World.getDomain (w : World V) (d : Nat) : VariableDomain V :=
  w.domains.getD d ⟨[], 0⟩

def World.setDomain (w : World V) (d : Nat) (ds : VariableDomain V) : World V :=
  { w with domains := w.domains.set d ds }

def World.getHandle (w : World V) (i : Nat) : DomainRestrictedVariable :=
  w.handles.getD i ⟨0, none, false⟩

def World.updHandle (w : World V) (i : Nat)
    (f : DomainRestrictedVariable → DomainRestrictedVariable) : World V :=
  { w with handles := w.handles.set i (f (w.getHandle i)) }

/-- Domain-side deletionNotice: every member of m_managed_variables (the
subscribed handles bound to domain d) receives the handle-side notice. -/
def World.deletionNotice (w : World V) (d : Nat) (tok : Nat) : World V :=
  { w with handles := w.handles.map (fun h =>
      if h.m_domain = d ∧ h.subscribed = true then h.deletionNotice tok else h) }

/-- Domain-side replacementNotice, same fan-out. -/
def World.replacementNotice (w : World V) (d : Nat) (oldTok newTok : Nat) : World V :=
  { w with handles := w.handles.map (fun h =>
      if h.m_domain = d ∧ h.subscribed = true then h.replacementNotice oldTok newTok else h) }

/-- addAllowedValue: insert, return whether a new element was added. -/
def World.addAllowedValue (w : World V) (d : Nat) (v : V) : World V × Bool :=
  let r := (w.getDomain d).insertVal v
  (w.setDomain d r.1, r.2.2)

/-- removeAllowedValue: find; if absent return false; else deletionNotice on
the element's identity, erase it, return true (source lines 311-323, with the
ill-typed guard read as iter == end). -/
def World.removeAllowedValue (w : World V) (d : Nat) (v : V) : World V × Bool :=
  match (w.getDomain d).findId v with
  | none => (w, false)
  | some tok =>
    let w1 := w.deletionNotice d tok
    (w1.setDomain d ((w1.getDomain d).eraseTok tok), true)

/-- replaceAllowedValue: find to_replace; if absent return false; else insert
replacement (pair.first is the stored identity, reused when already present),
replacementNotice(iter, pair.first), erase iter, return true (source lines
334-350).  Note that when to_replace equals replacement the inserted identity
IS the found iterator, which is then erased. -/
def World.replaceAllowedValue (w : World V) (d : Nat) (old rep : V) : World V × Bool :=
  match (w.getDomain d).findId old with
  | none => (w, false)
  | some oldTok =>
    let r := (w.getDomain d).insertVal rep
    let w1 := w.setDomain d r.1
    let w2 := w1.replacementNotice d oldTok r.2.1
    (w2.setDomain d ((w2.getDomain d).eraseTok oldTok), true)

/-- Constructor DomainRestrictedVariable(domain, value): m_value is the
lookup of value in the domain (empty slot on a miss), then subscribe. -/
def World.mkHandleWithValue (w : World V) (d : Nat) (v : V) : World V × Nat :=
  ({ w with handles := w.handles ++ [⟨d, (w.getDomain d).findId v, true⟩] },
   w.handles.length)

/-- Constructor DomainRestrictedVariable(domain): starts empty, subscribes. -/
def World.mkHandleEmpty (w : World V) (d : Nat) : World V × Nat :=
  ({ w with handles := w.handles ++ [⟨d, none, true⟩] }, w.handles.length)

/-- Copy constructor: same domain, same slot, independent subscription. -/
def World.copyConstruct (w : World V) (j : Nat) : World V × Nat :=
  ({ w with handles := w.handles ++ [⟨(w.getHandle j).m_domain, (w.getHandle j).m_value, true⟩] },
   w.handles.length)

/-- Move constructor (source lines 428-436): the new handle takes other's
domain and slot; then other.clear(), unsubscribe(&other), subscribe(this). -/
def World.moveConstruct (w : World V) (j : Nat) : World V × Nat :=
  let w1 : World V :=
    { w with handles := w.handles ++ [⟨(w.getHandle j).m_domain, (w.getHandle j).m_value, true⟩] }
  (w1.updHandle j (fun o => { o with m_value := none, subscribed := false }),
   w.handles.length)

/-- Move assignment (source lines 454-465), line by line: unsubscribe this,
unsubscribe other, this.m_domain = other.m_domain, subscribe this,
this.m_value = other.m_value, other.clear(). -/
def World.moveAssign (w : World V) (i j : Nat) : World V :=
  let w1 := w.updHandle i (fun h => { h with subscribed := false })
  let w2 := w1.updHandle j (fun h => { h with subscribed := false })
  let w3 := w2.updHandle i (fun h => { h with m_domain := (w2.getHandle j).m_domain,
                                              subscribed := true })
  let w4 := w3.updHandle i (fun h => { h with m_value := (w3.getHandle j).m_value })
  w4.updHandle j (fun h => { h with m_value := none })

/-- operator=(const value_type&): m_value = currently bound domain's find;
the domain binding and subscription are untouched (source lines 467-473). -/
def World.assignValue (w : World V) (i : Nat) (v : V) : World V :=
  w.updHandle i (fun h => { h with m_value := (w.getDomain h.m_domain).findId v })

/-- clear() on handle i. -/
def World.clearHandle (w : World V) (i : Nat) : World V :=
  w.updHandle i (fun h => h.clear)

/-- ~DomainRestrictedVariable: unsubscribe from the bound domain. -/
def World.destroyHandle (w : World V) (i : Nat) : World V :=
  w.updHandle i (fun h => { h with subscribed := false })

inductive TeardownResult
  | ok
  | lifecycleViolation
deriving DecidableEq

/-- ~VariableDomain (source lines 193-199): throws std::logic_error when
m_managed_variables is non-empty, otherwise destruction proceeds. -/
def World.destroyDomainCheck (w : World V) (d : Nat) : TeardownResult :=
  if w.handles.any (fun h => h.m_domain = d ∧ h.subscribed = true)
  then .lifecycleViolation else .ok

/-- operator value_type(): *m_value.  Defined (some v) exactly when the slot
holds a live identity of the bound domain; empty or dangling slots are the
undefined accesses. -/
def World.resolve (w : World V) (i : Nat) : Option V :=
  (w.getHandle i).m_value.bind (fun t => (w.getDomain (w.getHandle i).m_domain).lookupTok t)

section Comparisons

variable {W : Type} [LinearOrder W]

/-- operator<: Compare()(lhs, rhs) on the two resolved values; none when an
operand does not resolve (the source's undefined empty-handle access). -/
def World.handleLt (w : World W) (i j : Nat) : Option Bool :=
  match w.resolve i, w.resolve j with
  | some a, some b => some (decide (a < b))
  | _, _ => none

/-- operator==: Compare()(lhs, rhs) == Compare()(rhs, lhs). -/
def World.handleEqOp (w : World W) (i j : Nat) : Option Bool :=
  match w.resolve i, w.resolve j with
  | some a, some b => some (decide (a < b) == decide (b < a))
  | _, _ => none

/-- operator!=: !(lhs == rhs). -/
def World.handleNeOp (w : World W) (i j : Nat) : Option Bool :=
  (w.handleEqOp i j).map (fun b => !b)

/-- operator>: rhs < lhs. -/
def World.handleGt (w : World W) (i j : Nat) : Option Bool :=
  w.handleLt j i

/-- operator<=: !(lhs > rhs). -/
def World.handleLe (w : World W) (i j : Nat) : Option Bool :=
  (w.handleGt i j).map (fun b => !b)

/-- operator>=: !(lhs < rhs). -/
def World.handleGe (w : World W) (i j : Nat) : Option Bool :=
  (w.handleLt i j).map (fun b => !b)

end Comparisons

/-- Well-formedness of a domain's storage as std::set guarantees it:
identities are pairwise distinct, stored values are pairwise distinct
(set semantics under the order), and identities are below the fresh counter. -/
def DomainWF (d : VariableDomain V) : Prop :=
  (d.m_allowed_values.map Prod.fst).Nodup ∧
  (d.m_allowed_values.map Prod.snd).Nodup ∧
  ∀ p ∈ d.m_allowed_values, p.1 < d.nextId

/-- A handle's slot token was issued by its bound domain. -/
def HandleWF (w : World V) (h : DomainRestrictedVariable) : Prop :=
  ∀ t ∈ h.m_value, t < (w.getDomain h.m_domain).nextId

def WorldWF (w : World V) : Prop :=
  (∀ ds ∈ w.domains, DomainWF ds) ∧ ∀ h ∈ w.handles, HandleWF w h

instance (d : VariableDomain V) : Decidable (DomainWF d) := by
  unfold DomainWF; infer_instance

instance (w : World V) (h : DomainRestrictedVariable) : Decidable (HandleWF w h) := by
  unfold HandleWF; infer_instance

instance (w : World V) : Decidable (WorldWF w) := by
  unfold WorldWF; infer_instance

/-- Invariant I1/I3 as a decidable check: every subscribed handle is empty or
its slot token is a live element of its bound domain. -/
def invariantI1 (w : World V) : Bool :=
  w.handles.all (fun h =>
    !h.subscribed ||
      match h.m_value with
      | none => true
      | some t => ((w.getDomain h.m_domain).lookupTok t).isSome)

/-- Handle i is a member of m_managed_variables of domain d. -/
def World.isSubscriberOf (w : World V) (i d : Nat) : Prop :=
  (w.getHandle i).m_domain = d ∧ (w.getHandle i).subscribed = true

instance (w : World V) (i d : Nat) : Decidable (w.isSubscriberOf i d) := by
  unfold World.isSubscriberOf; infer_instance

/-- The indices of the handles currently bound to domain d. -/
def World.boundIdxs (w : World V) (d : Nat) : List Nat :=
  (List.range w.handles.length).filter (fun i => (w.getHandle i).m_domain = d)

/-- Run the handle destructor on every handle bound to domain d, one by one
(the teardown ordering a correct client performs before the domain dies). -/
def World.destroyAllBound (w : World V) (d : Nat) : World V :=
  (w.boundIdxs d).foldl World.destroyHandle w

/-- Concrete test world: one domain with elements {1, 2, 3} stored under
identities 0, 1, 2, and two subscribed handles bound to values 2 and 1. -/
def cw : World Nat :=
  { domains := [⟨[(0, 1), (1, 2), (2, 3)], 3⟩],
    handles := [⟨0, some 1, true⟩, ⟨0, some 0, true⟩] }

/-- Concrete test world for the self-replacement defect: a domain holding
only the value 2 (identity 0) and one subscribed handle bound to it. -/
def cw1 : World Nat :=
  { domains := [⟨[(0, 2)], 1⟩], handles := [⟨0, some 0, true⟩] }

/-! ## General list helpers -/

theorem getD_set_self {α : Type} (l : List α) (i : Nat) (x dflt : α)
    (h : i < l.length) : (l.set i x).getD i dflt = x := by
  induction l generalizing i with
  | nil => simp at h
  | cons a l ih =>
    cases i with
    | zero => rfl
    | succ i => simpa using ih i (by simpa using h)

theorem getD_set_ne {α : Type} (l : List α) (i j : Nat) (x dflt : α)
    (h : i ≠ j) : (l.set i x).getD j dflt = l.getD j dflt := by
  induction l generalizing i j with
  | nil => rfl
  | cons a l ih =>
    cases i with
    | zero =>
      cases j with
      | zero => exact absurd rfl h
      | succ j => rfl
    | succ i =>
      cases j with
      | zero => rfl
      | succ j => simpa using ih i j (by omega)

theorem getD_append_left {α : Type} (l l2 : List α) (i : Nat) (dflt : α)
    (h : i < l.length) : (l ++ l2).getD i dflt = l.getD i dflt := by
  induction l generalizing i with
  | nil => simp at h
  | cons a l ih =>
    cases i with
    | zero => rfl
    | succ i => simpa using ih i (by simpa using h)

theorem getD_append_len {α : Type} (l : List α) (x dflt : α) :
    (l ++ [x]).getD l.length dflt = x := by
  induction l with
  | nil => rfl
  | cons a l ih => exact ih

theorem getD_eq_default {α : Type} (l : List α) (i : Nat) (dflt : α)
    (h : l.length ≤ i) : l.getD i dflt = dflt := by
  induction l generalizing i with
  | nil => cases i <;> rfl
  | cons a l ih =>
    cases i with
    | zero => simp at h
    | succ i => simpa using ih i (by simpa using h)

theorem getD_map_lt {α : Type} (l : List α) (f : α → α) (i : Nat) (dflt : α)
    (h : i < l.length) : (l.map f).getD i dflt = f (l.getD i dflt) := by
  induction l generalizing i with
  | nil => simp at h
  | cons a l ih =>
    cases i with
    | zero => rfl
    | succ i => simpa using ih i (by simpa using h)

theorem find?_filter_of_imp {α : Type} (l : List α) (p q : α → Bool)
    (h : ∀ x, p x = true → q x = true) :
    (l.filter q).find? p = l.find? p := by
  induction l with
  | nil => rfl
  | cons a l ih =>
    by_cases hp : p a = true
    · rw [List.filter_cons_of_pos (h a hp), List.find?_cons_of_pos _ hp,
        List.find?_cons_of_pos _ hp]
    · by_cases hq : q a = true
      · rw [List.filter_cons_of_pos hq, List.find?_cons_of_neg _ (by simp [hp]),
          List.find?_cons_of_neg _ (by simp [hp])]
        exact ih
      · rw [List.filter_cons_of_neg (by simpa using hq),
          List.find?_cons_of_neg _ (by simp [hp])]
        exact ih

theorem find?_eq_some_of_unique {α : Type} (l : List α) (p : α → Bool) (a : α)
    (ha : a ∈ l) (hpa : p a = true) (huniq : ∀ b ∈ l, p b = true → b = a) :
    l.find? p = some a := by
  induction l with
  | nil => simp at ha
  | cons x l ih =>
    by_cases hx : p x = true
    · rw [List.find?_cons_of_pos _ hx, huniq x (List.mem_cons_self x l) hx]
    · rw [List.find?_cons_of_neg _ (by simp [hx])]
      rcases List.mem_cons.mp ha with h | h
      · exact absurd (h ▸ hpa) hx
      · exact ih h (fun b hb => huniq b (List.mem_cons_of_mem x hb))

theorem find?_append_of_some {α : Type} (l l2 : List α) (p : α → Bool) (a : α)
    (h : l.find? p = some a) : (l ++ l2).find? p = some a := by
  induction l with
  | nil => simp at h
  | cons x l ih =>
    by_cases hx : p x = true
    · rw [List.find?_cons_of_pos _ hx] at h
      rw [List.cons_append, List.find?_cons_of_pos _ hx]
      exact h
    · rw [List.find?_cons_of_neg _ (by simp [hx])] at h
      rw [List.cons_append, List.find?_cons_of_neg _ (by simp [hx])]
      exact ih h

theorem find?_append_of_none {α : Type} (l l2 : List α) (p : α → Bool)
    (h : l.find? p = none) : (l ++ l2).find? p = l2.find? p := by
  induction l with
  | nil => rfl
  | cons x l ih =>
    by_cases hx : p x = true
    · rw [List.find?_cons_of_pos _ hx] at h; exact absurd h (by simp)
    · rw [List.find?_cons_of_neg _ (by simp [hx])] at h
      rw [List.cons_append, List.find?_cons_of_neg _ (by simp [hx])]
      exact ih h

/-! ## Domain storage lemmas -/

theorem findId_some_mem (d : VariableDomain V) (v : V) (t : Nat)
    (h : d.findId v = some t) : (t, v) ∈ d.m_allowed_values := by
  unfold VariableDomain.findId at h
  rcases Option.map_eq_some'.mp h with ⟨p, hp, hfst⟩
  have hmem := List.mem_of_find?_eq_some hp
  have hsnd : p.2 = v := by simpa using List.find?_some hp
  have : p = (t, v) := by
    cases p; simp_all
  exact this ▸ hmem

theorem snd_inj_of_wf (d : VariableDomain V) (hwf : DomainWF d)
    (a b : Nat × V) (ha : a ∈ d.m_allowed_values) (hb : b ∈ d.m_allowed_values)
    (h : a.2 = b.2) : a = b :=
  List.inj_on_of_nodup_map hwf.2.1 ha hb h

theorem fst_inj_of_wf (d : VariableDomain V) (hwf : DomainWF d)
    (a b : Nat × V) (ha : a ∈ d.m_allowed_values) (hb : b ∈ d.m_allowed_values)
    (h : a.1 = b.1) : a = b :=
  List.inj_on_of_nodup_map hwf.1 ha hb h

theorem lookupTok_of_mem (d : VariableDomain V) (hwf : DomainWF d)
    (t : Nat) (v : V) (hmem : (t, v) ∈ d.m_allowed_values) :
    d.lookupTok t = some v := by
  unfold VariableDomain.lookupTok
  rw [find?_eq_some_of_unique d.m_allowed_values _ (t, v) hmem (by simp)]
  · rfl
  · intro b hb hbt
    exact fst_inj_of_wf d hwf b (t, v) hb hmem (by simpa using hbt)

theorem findId_of_mem (d : VariableDomain V) (hwf : DomainWF d)
    (t : Nat) (v : V) (hmem : (t, v) ∈ d.m_allowed_values) :
    d.findId v = some t := by
  unfold VariableDomain.findId
  rw [find?_eq_some_of_unique d.m_allowed_values _ (t, v) hmem (by simp)]
  · rfl
  · intro b hb hbv
    exact snd_inj_of_wf d hwf b (t, v) hb hmem (by simpa using hbv)

theorem lookupTok_eraseTok_ne (d : VariableDomain V) (t t' : Nat) (h : t' ≠ t) :
    (d.eraseTok t).lookupTok t' = d.lookupTok t' := by
  unfold VariableDomain.eraseTok VariableDomain.lookupTok
  simp only
  rw [find?_filter_of_imp]
  intro x hx
  simp at hx ⊢
  omega

theorem lookupTok_eraseTok_self (d : VariableDomain V) (t : Nat) :
    (d.eraseTok t).lookupTok t = none := by
  unfold VariableDomain.eraseTok VariableDomain.lookupTok
  simp only [Option.map_eq_none']
  rw [List.find?_eq_none]
  intro p hp
  simp only [List.mem_filter] at hp
  simpa using hp.2

theorem findId_eraseTok_self (d : VariableDomain V) (hwf : DomainWF d)
    (t : Nat) (v : V) (hmem : (t, v) ∈ d.m_allowed_values) :
    (d.eraseTok t).findId v = none := by
  unfold VariableDomain.eraseTok VariableDomain.findId
  simp only [Option.map_eq_none']
  rw [List.find?_eq_none]
  intro p hp
  simp only [List.mem_filter] at hp
  intro hpv
  have : p = (t, v) := snd_inj_of_wf d hwf p (t, v) hp.1 hmem (by simpa using hpv)
  rw [this] at hp
  simpa using hp.2

theorem domainWF_eraseTok (d : VariableDomain V) (hwf : DomainWF d) (t : Nat) :
    DomainWF (d.eraseTok t) := by
  obtain ⟨h1, h2, h3⟩ := hwf
  refine ⟨?_, ?_, ?_⟩
  · exact (List.Sublist.map Prod.fst (List.filter_sublist _)).nodup h1
  · exact (List.Sublist.map Prod.snd (List.filter_sublist _)).nodup h2
  · intro p hp
    exact h3 p (List.mem_of_mem_filter hp)

theorem findId_eraseTok_other (d : VariableDomain V) (hwf : DomainWF d)
    (t t' : Nat) (v : V) (hne : t' ≠ t) (hmem : (t', v) ∈ d.m_allowed_values) :
    (d.eraseTok t).findId v = some t' := by
  apply findId_of_mem _ (domainWF_eraseTok d hwf t)
  unfold VariableDomain.eraseTok
  simp only [List.mem_filter]
  exact ⟨hmem, by simpa using hne⟩

theorem insertVal_present (d : VariableDomain V) (v : V) (t : Nat)
    (h : d.findId v = some t) : d.insertVal v = (d, t, false) := by
  unfold VariableDomain.insertVal
  rw [h]

theorem insertVal_fresh (d : VariableDomain V) (v : V)
    (h : d.findId v = none) :
    d.insertVal v =
      ({ m_allowed_values := d.m_allowed_values ++ [(d.nextId, v)],
         nextId := d.nextId + 1 }, d.nextId, true) := by
  unfold VariableDomain.insertVal
  rw [h]

theorem domainWF_insertVal (d : VariableDomain V) (hwf : DomainWF d) (v : V) :
    DomainWF (d.insertVal v).1 := by
  cases hfind : d.findId v with
  | some t => rw [insertVal_present d v t hfind]; exact hwf
  | none =>
    rw [insertVal_fresh d v hfind]
    dsimp only
    obtain ⟨h1, h2, h3⟩ := hwf
    have hvnot : ∀ p ∈ d.m_allowed_values, ¬ p.2 = v := by
      intro p hp
      have := List.find?_eq_none.mp (by
        unfold VariableDomain.findId at hfind
        exact Option.map_eq_none'.mp hfind) p hp
      simpa using this
    refine ⟨?_, ?_, ?_⟩
    · simp only [List.map_append, List.map_cons, List.map_nil]
      rw [List.nodup_append]
      refine ⟨h1, List.nodup_singleton _, ?_⟩
      intro a ha hb
      simp only [List.mem_singleton] at hb
      rcases List.mem_map.mp ha with ⟨p, hp, hpa⟩
      have := h3 p hp
      omega
    · simp only [List.map_append, List.map_cons, List.map_nil]
      rw [List.nodup_append]
      refine ⟨h2, List.nodup_singleton _, ?_⟩
      intro a ha hb
      simp only [List.mem_singleton] at hb
      rcases List.mem_map.mp ha with ⟨p, hp, hpa⟩
      exact hvnot p hp (by rw [hpa, hb])
    · intro p hp
      dsimp only at hp ⊢
      rcases List.mem_append.mp hp with h | h
      · have := h3 p h; omega
      · simp only [List.mem_singleton] at h
        rw [h]
        omega

theorem lookupTok_insertVal_new (d : VariableDomain V) (hwf : DomainWF d) (v : V)
    (h : d.findId v = none) :
    (d.insertVal v).1.lookupTok (d.insertVal v).2.1 = some v := by
  rw [insertVal_fresh d v h]
  unfold VariableDomain.lookupTok
  dsimp only
  rw [find?_append_of_none]
  · simp
  · rw [List.find?_eq_none]
    intro p hp
    have := hwf.2.2 p hp
    simp only [decide_eq_true_eq]
    omega

theorem lookupTok_insertVal_old (d : VariableDomain V)
    (v : V) (t : Nat) (ht : t < d.nextId) :
    (d.insertVal v).1.lookupTok t = d.lookupTok t := by
  cases hfind : d.findId v with
  | some t0 => rw [insertVal_present d v t0 hfind]
  | none =>
    rw [insertVal_fresh d v hfind]
    unfold VariableDomain.lookupTok
    dsimp only
    cases hfd : d.m_allowed_values.find? (fun p => decide (p.1 = t)) with
    | some p => rw [find?_append_of_some _ _ _ p hfd]
    | none =>
      rw [find?_append_of_none _ _ _ hfd]
      have hnone : List.find? (fun p => decide (p.1 = t)) [(d.nextId, v)] = none := by
        rw [List.find?_eq_none]
        intro p hp
        simp only [List.mem_singleton] at hp
        rw [hp]
        simp only [decide_eq_true_eq]
        omega
      rw [hnone]

theorem findId_insertVal_self (d : VariableDomain V) (v : V) :
    (d.insertVal v).1.findId v = some (d.insertVal v).2.1 := by
  cases hfind : d.findId v with
  | some t0 => rw [insertVal_present d v t0 hfind]; exact hfind
  | none =>
    rw [insertVal_fresh d v hfind]
    unfold VariableDomain.findId at hfind ⊢
    dsimp only
    rw [find?_append_of_none _ _ _ (Option.map_eq_none'.mp hfind)]
    simp

/-! ## World access lemmas -/

theorem getDomain_setDomain_self (w : World V) (d : Nat) (ds : VariableDomain V)
    (hd : d < w.domains.length) : (w.setDomain d ds).getDomain d = ds :=
  getD_set_self w.domains d ds _ hd

theorem getDomain_setDomain_ne (w : World V) (d d' : Nat) (ds : VariableDomain V)
    (h : d ≠ d') : (w.setDomain d ds).getDomain d' = w.getDomain d' :=
  getD_set_ne w.domains d d' ds _ h

theorem setDomain_handles (w : World V) (d : Nat) (ds : VariableDomain V) :
    (w.setDomain d ds).handles = w.handles := rfl

theorem deletionNotice_domains (w : World V) (d tok : Nat) :
    (w.deletionNotice d tok).domains = w.domains := rfl

theorem replacementNotice_domains (w : World V) (d oldTok newTok : Nat) :
    (w.replacementNotice d oldTok newTok).domains = w.domains := rfl

theorem updHandle_domains (w : World V) (i : Nat)
    (f : DomainRestrictedVariable → DomainRestrictedVariable) :
    (w.updHandle i f).domains = w.domains := rfl

theorem getHandle_deletionNotice (w : World V) (d tok i : Nat)
    (hi : i < w.handles.length) :
    (w.deletionNotice d tok).getHandle i =
      if (w.getHandle i).m_domain = d ∧ (w.getHandle i).subscribed = true
      then (w.getHandle i).deletionNotice tok else w.getHandle i := by
  unfold World.deletionNotice World.getHandle
  exact getD_map_lt w.handles _ i _ hi

theorem getHandle_replacementNotice (w : World V) (d oldTok newTok i : Nat)
    (hi : i < w.handles.length) :
    (w.replacementNotice d oldTok newTok).getHandle i =
      if (w.getHandle i).m_domain = d ∧ (w.getHandle i).subscribed = true
      then (w.getHandle i).replacementNotice oldTok newTok else w.getHandle i := by
  unfold World.replacementNotice World.getHandle
  exact getD_map_lt w.handles _ i _ hi

theorem length_deletionNotice (w : World V) (d tok : Nat) :
    (w.deletionNotice d tok).handles.length = w.handles.length :=
  List.length_map _ _

theorem length_replacementNotice (w : World V) (d oldTok newTok : Nat) :
    (w.replacementNotice d oldTok newTok).handles.length = w.handles.length :=
  List.length_map _ _

theorem length_updHandle (w : World V) (i : Nat)
    (f : DomainRestrictedVariable → DomainRestrictedVariable) :
    (w.updHandle i f).handles.length = w.handles.length :=
  List.length_set _ _ _

theorem getHandle_updHandle_self (w : World V) (i : Nat)
    (f : DomainRestrictedVariable → DomainRestrictedVariable)
    (hi : i < w.handles.length) :
    (w.updHandle i f).getHandle i = f (w.getHandle i) :=
  getD_set_self w.handles i _ _ hi

theorem getHandle_updHandle_ne (w : World V) (i j : Nat)
    (f : DomainRestrictedVariable → DomainRestrictedVariable)
    (h : i ≠ j) : (w.updHandle i f).getHandle j = w.getHandle j :=
  getD_set_ne w.handles i j _ _ h

theorem getHandle_setDomain (w : World V) (d : Nat) (ds : VariableDomain V)
    (i : Nat) : (w.setDomain d ds).getHandle i = w.getHandle i := rfl

theorem getDomain_lt_of_findId (w : World V) (d : Nat) (v : V) (t : Nat)
    (h : (w.getDomain d).findId v = some t) : d < w.domains.length := by
  by_contra hge
  have : w.getDomain d = ⟨[], 0⟩ :=
    getD_eq_default w.domains d _ (by omega)
  rw [this] at h
  simp [VariableDomain.findId] at h

theorem domainWF_getDomain (w : World V) (hwf : WorldWF w) (d : Nat) :
    DomainWF (w.getDomain d) := by
  by_cases hd : d < w.domains.length
  · apply hwf.1
    unfold World.getDomain
    rw [List.getD_eq_getElem w.domains _ hd]
    exact List.getElem_mem hd
  · unfold World.getDomain
    rw [getD_eq_default w.domains d _ (by omega)]
    exact ⟨List.nodup_nil, List.nodup_nil, by simp⟩

theorem removeAllowedValue_of_absent (w : World V) (d : Nat) (v : V)
    (h : (w.getDomain d).findId v = none) :
    w.removeAllowedValue d v = (w, false) := by
  unfold World.removeAllowedValue
  rw [h]

theorem removeAllowedValue_of_found (w : World V) (d : Nat) (v : V) (tok : Nat)
    (h : (w.getDomain d).findId v = some tok) :
    w.removeAllowedValue d v =
      ((w.deletionNotice d tok).setDomain d
        (((w.deletionNotice d tok).getDomain d).eraseTok tok), true) := by
  unfold World.removeAllowedValue
  rw [h]

theorem replaceAllowedValue_of_absent (w : World V) (d : Nat) (old rep : V)
    (h : (w.getDomain d).findId old = none) :
    w.replaceAllowedValue d old rep = (w, false) := by
  unfold World.replaceAllowedValue
  rw [h]

theorem replaceAllowedValue_of_found (w : World V) (d : Nat) (old rep : V)
    (oldTok : Nat) (h : (w.getDomain d).findId old = some oldTok) :
    w.replaceAllowedValue d old rep =
      (((w.setDomain d ((w.getDomain d).insertVal rep).1).replacementNotice d
          oldTok ((w.getDomain d).insertVal rep).2.1).setDomain d
        ((((w.setDomain d ((w.getDomain d).insertVal rep).1).replacementNotice d
            oldTok ((w.getDomain d).insertVal rep).2.1).getDomain d).eraseTok oldTok),
       true) := by
  unfold World.replaceAllowedValue
  rw [h]

/-! ## Claim theorems -/

/-- C1: the claim that after every operation each subscribed handle is empty
or references a live element of its bound domain (I1/I3) is FALSE of the
code: in a world whose single domain holds only the value 2 and whose single
subscribed handle is bound to it, the invariant holds beforehand,
replaceAllowedValue 2 2 returns true, and afterwards the subscribed handle is
still non-empty while its identity has been erased from the domain, so the
invariant is violated. -/
theorem C1_invariant_violated_by_self_replacement :
    invariantI1 cw1 = true ∧
    (cw1.replaceAllowedValue 0 2 2).2 = true ∧
    invariantI1 (cw1.replaceAllowedValue 0 2 2).1 = false ∧
    ((cw1.replaceAllowedValue 0 2 2).1.getHandle 0).has_value = true ∧
    ((cw1.replaceAllowedValue 0 2 2).1.getDomain 0).isAllowedValue 2 = false := by
  decide

/-- C7: constructing a handle bound to a domain with an initial value absent
from that domain leaves the new handle empty (has_value false) but subscribed
and bound to the domain; likewise assigning an absent value to an existing
handle empties its slot while leaving its domain binding and subscription
untouched. -/
theorem C7_absent_lookup_yields_empty_handle (w : World V) (d : Nat) (v : V)
    (i : Nat) (hd : (w.getDomain d).findId v = none)
    (hi : i < w.handles.length)
    (ha : (w.getDomain (w.getHandle i).m_domain).findId v = none) :
    (w.mkHandleWithValue d v).1.getHandle (w.mkHandleWithValue d v).2 =
      ⟨d, none, true⟩ ∧
    ((w.mkHandleWithValue d v).1.getHandle (w.mkHandleWithValue d v).2).has_value
      = false ∧
    (w.assignValue i v).getHandle i =
      ⟨(w.getHandle i).m_domain, none, (w.getHandle i).subscribed⟩ ∧
    ((w.assignValue i v).getHandle i).has_value = false := by
  have h1 : (w.mkHandleWithValue d v).1.getHandle (w.mkHandleWithValue d v).2 =
      ⟨d, (w.getDomain d).findId v, true⟩ := by
    unfold World.mkHandleWithValue World.getHandle
    exact getD_append_len w.handles _ _
  rw [hd] at h1
  have h2 : (w.assignValue i v).getHandle i =
      ⟨(w.getHandle i).m_domain, none, (w.getHandle i).subscribed⟩ := by
    unfold World.assignValue
    rw [getHandle_updHandle_self w i _ hi, ha]
  refine ⟨h1, ?_, h2, ?_⟩
  · rw [h1]; rfl
  · rw [h2]; rfl

/-- C9: when both operands resolve to values, every comparison operator is
the Ord relation on the two resolved values: lhs < rhs iff a < b, equality
iff neither value precedes the other, and !=, >, <=, >= are the derived
relations. -/
theorem C9_comparisons {W : Type} [LinearOrder W] (w : World W) (i j : Nat)
    (a b : W) (ha : w.resolve i = some a) (hb : w.resolve j = some b) :
    (w.handleLt i j = some true ↔ a < b) ∧
    (w.handleEqOp i j = some true ↔ ¬ a < b ∧ ¬ b < a) ∧
    (w.handleNeOp i j = some true ↔ (a < b ∨ b < a)) ∧
    (w.handleGt i j = some true ↔ b < a) ∧
    (w.handleLe i j = some true ↔ ¬ b < a) ∧
    (w.handleGe i j = some true ↔ ¬ a < b) := by
  unfold World.handleNeOp World.handleLe World.handleGe World.handleGt
    World.handleEqOp World.handleLt
  rw [ha, hb]
  by_cases hab : a < b
  · by_cases hba : b < a
    · exact absurd hba (lt_asymm hab)
    · simp [hab, hba]
  · by_cases hba : b < a <;> simp [hab, hba]

/-- Witness for C7 at a concrete world: value 9 is absent from the domain
{1, 2, 3}, so both construction and assignment produce empty handles. -/
theorem C7_witness :
    (cw.mkHandleWithValue 0 9).1.getHandle (cw.mkHandleWithValue 0 9).2 =
      ⟨0, none, true⟩ ∧
    ((cw.mkHandleWithValue 0 9).1.getHandle (cw.mkHandleWithValue 0 9).2).has_value
      = false ∧
    (cw.assignValue 0 9).getHandle 0 =
      ⟨(cw.getHandle 0).m_domain, none, (cw.getHandle 0).subscribed⟩ ∧
    ((cw.assignValue 0 9).getHandle 0).has_value = false :=
  C7_absent_lookup_yields_empty_handle cw 0 9 0 (by decide) (by decide) (by decide)

/-- Witness for C9 at a concrete world: handle 0 resolves to 2 and handle 1
resolves to 1. -/
theorem C9_witness :
    (cw.handleLt 0 1 = some true ↔ (2 : Nat) < 1) ∧
    (cw.handleEqOp 0 1 = some true ↔ ¬ (2 : Nat) < 1 ∧ ¬ (1 : Nat) < 2) ∧
    (cw.handleNeOp 0 1 = some true ↔ ((2 : Nat) < 1 ∨ (1 : Nat) < 2)) ∧
    (cw.handleGt 0 1 = some true ↔ (1 : Nat) < 2) ∧
    (cw.handleLe 0 1 = some true ↔ ¬ (1 : Nat) < 2) ∧
    (cw.handleGe 0 1 = some true ↔ ¬ (2 : Nat) < 1) :=
  C9_comparisons cw 0 1 2 1 (by decide) (by decide)

/-! ## Teardown helpers -/

theorem getHandle_updHandle_oob (w : World V) (i : Nat)
    (f : DomainRestrictedVariable → DomainRestrictedVariable)
    (hi : w.handles.length ≤ i) : (w.updHandle i f).handles = w.handles := by
  unfold World.updHandle
  simp [List.set_eq_of_length_le hi]

theorem length_destroyHandle (w : World V) (i : Nat) :
    (w.destroyHandle i).handles.length = w.handles.length :=
  List.length_set _ _ _

theorem foldl_destroy_length (L : List Nat) (w : World V) :
    (L.foldl World.destroyHandle w).handles.length = w.handles.length := by
  induction L generalizing w with
  | nil => rfl
  | cons x L ih =>
    rw [List.foldl_cons, ih, length_destroyHandle]

theorem foldl_destroy_getHandle_not_mem (L : List Nat) (w : World V) (j : Nat)
    (hj : j ∉ L) : (L.foldl World.destroyHandle w).getHandle j = w.getHandle j := by
  induction L generalizing w with
  | nil => rfl
  | cons x L ih =>
    rw [List.foldl_cons, ih _ (fun h => hj (List.mem_cons_of_mem x h))]
    exact getHandle_updHandle_ne w x j _ (fun h => hj (h ▸ List.mem_cons_self x L))

theorem foldl_destroy_subscribed_of_mem (L : List Nat) (w : World V) (j : Nat)
    (hj : j ∈ L) (hlen : j < w.handles.length) :
    ((L.foldl World.destroyHandle w).getHandle j).subscribed = false := by
  induction L generalizing w with
  | nil => simp at hj
  | cons x L ih =>
    rw [List.foldl_cons]
    by_cases hmem : j ∈ L
    · exact ih (w.destroyHandle x) hmem (by rw [length_destroyHandle]; exact hlen)
    · have hx : j = x := by
        rcases List.mem_cons.mp hj with h | h
        · exact h
        · exact absurd h hmem
      subst hx
      rw [foldl_destroy_getHandle_not_mem L _ j hmem]
      unfold World.destroyHandle
      rw [getHandle_updHandle_self w j _ hlen]

theorem foldl_destroy_m_domain (L : List Nat) (w : World V) (j : Nat) :
    ((L.foldl World.destroyHandle w).getHandle j).m_domain =
      (w.getHandle j).m_domain := by
  induction L generalizing w with
  | nil => rfl
  | cons x L ih =>
    rw [List.foldl_cons, ih]
    by_cases hx : x = j
    · subst hx
      by_cases hlen : x < w.handles.length
      · unfold World.destroyHandle
        rw [getHandle_updHandle_self w x _ hlen]
      · unfold World.destroyHandle World.getHandle
        rw [getHandle_updHandle_oob w x _ (by omega)]
    · unfold World.destroyHandle
      rw [getHandle_updHandle_ne w x j _ hx]

/-- C5: the domain destructor raises the lifecycle violation whenever some
handle is still subscribed to it, and succeeds once every handle bound to it
has been destroyed (each handle destructor unsubscribing its handle). -/
theorem C5_teardown_ordering (w : World V) (d : Nat) :
    ((∃ i, w.isSubscriberOf i d) →
        w.destroyDomainCheck d = TeardownResult.lifecycleViolation) ∧
    (w.destroyAllBound d).destroyDomainCheck d = TeardownResult.ok := by
  constructor
  · rintro ⟨i, hdom, hsub⟩
    have hi : i < w.handles.length := by
      by_contra hge
      have : w.getHandle i = ⟨0, none, false⟩ :=
        getD_eq_default w.handles i _ (by omega)
      rw [this] at hsub
      simp at hsub
    unfold World.destroyDomainCheck
    rw [if_pos]
    rw [List.any_eq_true]
    refine ⟨w.getHandle i, ?_, ?_⟩
    · unfold World.getHandle
      rw [List.getD_eq_getElem w.handles _ hi]
      exact List.getElem_mem hi
    · simp only [decide_eq_true_eq]
      exact ⟨hdom, hsub⟩
  · unfold World.destroyDomainCheck
    rw [if_neg]
    intro hany
    rw [List.any_eq_true] at hany
    obtain ⟨h, hmem, hp⟩ := hany
    simp only [decide_eq_true_eq] at hp
    obtain ⟨i, hlt, hig⟩ := List.mem_iff_getElem.mp hmem
    have hlen : i < w.handles.length := by
      have := foldl_destroy_length (w.boundIdxs d) w
      unfold World.destroyAllBound at hlt
      omega
    have hgh : (w.destroyAllBound d).getHandle i = h := by
      unfold World.getHandle
      rw [List.getD_eq_getElem _ _ hlt]
      exact hig
    have hdomi : (w.getHandle i).m_domain = d := by
      have := foldl_destroy_m_domain (w.boundIdxs d) w i
      unfold World.destroyAllBound at hgh
      rw [hgh] at this
      rw [← this]
      exact hp.1
    have hmemL : i ∈ w.boundIdxs d := by
      unfold World.boundIdxs
      rw [List.mem_filter]
      exact ⟨List.mem_range.mpr hlen, by simpa using hdomi⟩
    have := foldl_destroy_subscribed_of_mem (w.boundIdxs d) w i hmemL hlen
    unfold World.destroyAllBound at hgh
    rw [hgh] at this
    rw [hp.2] at this
    simp at this

/-- Witness for C5 at a concrete world: handle 0 is subscribed, so immediate
destruction reports the violation; destroying both handles first makes
destruction succeed. -/
theorem C5_witness :
    cw.destroyDomainCheck 0 = TeardownResult.lifecycleViolation ∧
    (cw.destroyAllBound 0).destroyDomainCheck 0 = TeardownResult.ok :=
  ⟨(C5_teardown_ordering cw 0).1 ⟨0, by decide, by decide⟩,
   (C5_teardown_ordering cw 0).2⟩

/-- C3: removeAllowedValue returns true exactly when the value is present;
when absent it returns false and the world is completely unchanged; when
present, afterwards the value is gone from the domain and each handle is
emptied exactly when it was a subscribed handle of this domain whose slot
held the removed element's identity, all other handles being unchanged. -/
theorem C3_remove_semantics (w : World V) (d : Nat) (v : V) (hwf : WorldWF w) :
    ((w.removeAllowedValue d v).2 = (w.getDomain d).isAllowedValue v) ∧
    ((w.getDomain d).isAllowedValue v = false →
      w.removeAllowedValue d v = (w, false)) ∧
    (∀ tok, (w.getDomain d).findId v = some tok →
      ((w.removeAllowedValue d v).1.getDomain d).isAllowedValue v = false ∧
      ∀ i, i < w.handles.length →
        (w.removeAllowedValue d v).1.getHandle i =
          (if (w.getHandle i).m_domain = d ∧ (w.getHandle i).subscribed = true ∧
              (w.getHandle i).m_value = some tok
           then (w.getHandle i).clear else w.getHandle i)) := by
  refine ⟨?_, ?_, ?_⟩
  · cases hfind : (w.getDomain d).findId v with
    | none =>
      rw [removeAllowedValue_of_absent w d v hfind]
      unfold VariableDomain.isAllowedValue
      rw [hfind]
      rfl
    | some tok =>
      rw [removeAllowedValue_of_found w d v tok hfind]
      unfold VariableDomain.isAllowedValue
      rw [hfind]
      rfl
  · intro habs
    unfold VariableDomain.isAllowedValue at habs
    cases hfind : (w.getDomain d).findId v with
    | none => exact removeAllowedValue_of_absent w d v hfind
    | some tok => rw [hfind] at habs; simp at habs
  · intro tok hfind
    have hdlen : d < w.domains.length := getDomain_lt_of_findId w d v tok hfind
    have hdwf : DomainWF (w.getDomain d) := domainWF_getDomain w hwf d
    have hmem : (tok, v) ∈ (w.getDomain d).m_allowed_values :=
      findId_some_mem (w.getDomain d) v tok hfind
    rw [removeAllowedValue_of_found w d v tok hfind]
    dsimp only
    constructor
    · have hdel : (w.deletionNotice d tok).getDomain d = w.getDomain d := rfl
      rw [getDomain_setDomain_self (w.deletionNotice d tok) d _ hdlen]
      rw [hdel]
      unfold VariableDomain.isAllowedValue
      rw [findId_eraseTok_self (w.getDomain d) hdwf tok v hmem]
      rfl
    · intro i hi
      rw [getHandle_setDomain]
      rw [getHandle_deletionNotice w d tok i hi]
      by_cases c1 : (w.getHandle i).m_domain = d ∧ (w.getHandle i).subscribed = true
      · rw [if_pos c1]
        unfold DomainRestrictedVariable.deletionNotice
        by_cases c2 : (w.getHandle i).m_value = some tok
        · rw [if_pos c2, if_pos ⟨c1.1, c1.2, c2⟩]
          rfl
        · rw [if_neg c2, if_neg (by rintro ⟨-, -, h⟩; exact c2 h)]
      · rw [if_neg c1, if_neg (by rintro ⟨h1, h2, -⟩; exact c1 ⟨h1, h2⟩)]

/-- Witness for C3 at a concrete world: removing the present value 2 returns
true, empties the handle bound to it, and removes 2 from the domain. -/
theorem C3_witness :
    (cw.removeAllowedValue 0 2).2 = true ∧
    ((cw.removeAllowedValue 0 2).1.getDomain 0).isAllowedValue 2 = false ∧
    (cw.removeAllowedValue 0 2).1.getHandle 0 = ⟨0, none, true⟩ ∧
    (cw.removeAllowedValue 0 2).1.getHandle 1 = cw.getHandle 1 := by
  obtain ⟨h1, h2, h3⟩ := C3_remove_semantics cw 0 2 (by decide)
  obtain ⟨h4, h5⟩ := h3 1 (by decide)
  refine ⟨by rw [h1]; decide, h4, ?_, ?_⟩
  · rw [h5 0 (by decide)]; decide
  · rw [h5 1 (by decide)]; decide

theorem length_domains_setDomain (w : World V) (d : Nat) (ds : VariableDomain V) :
    (w.setDomain d ds).domains.length = w.domains.length :=
  List.length_set _ _ _

/-- C10: replacing a present value x by x itself returns true yet erases x
from the domain, while every subscribed handle of that domain that was bound
to x keeps its old identity and stays non-empty (the replacement notice
rebinds it to the very element that is erased next). -/
theorem C10_self_replacement (w : World V) (d : Nat) (x : V) (tx : Nat)
    (hwf : WorldWF w) (hfind : (w.getDomain d).findId x = some tx) :
    (w.replaceAllowedValue d x x).2 = true ∧
    ((w.replaceAllowedValue d x x).1.getDomain d).isAllowedValue x = false ∧
    ∀ i, i < w.handles.length →
      (w.getHandle i).m_domain = d → (w.getHandle i).subscribed = true →
      (w.getHandle i).m_value = some tx →
      ((w.replaceAllowedValue d x x).1.getHandle i).m_value = some tx ∧
      ((w.replaceAllowedValue d x x).1.getHandle i).has_value = true := by
  have hdlen : d < w.domains.length := getDomain_lt_of_findId w d x tx hfind
  have hdwf : DomainWF (w.getDomain d) := domainWF_getDomain w hwf d
  have hmem : (tx, x) ∈ (w.getDomain d).m_allowed_values :=
    findId_some_mem (w.getDomain d) x tx hfind
  rw [replaceAllowedValue_of_found w d x x tx hfind,
    insertVal_present (w.getDomain d) x tx hfind]
  dsimp only
  have hg1 : (w.setDomain d (w.getDomain d)).getDomain d = w.getDomain d :=
    getDomain_setDomain_self w d _ hdlen
  have hg2 : ((w.setDomain d (w.getDomain d)).replacementNotice d tx tx).getDomain d
      = w.getDomain d := hg1
  refine ⟨rfl, ?_, ?_⟩
  · rw [getDomain_setDomain_self
      ((w.setDomain d (w.getDomain d)).replacementNotice d tx tx) d _
      (by rw [replacementNotice_domains, length_domains_setDomain]; exact hdlen)]
    rw [hg2]
    unfold VariableDomain.isAllowedValue
    rw [findId_eraseTok_self (w.getDomain d) hdwf tx x hmem]
    rfl
  · intro i hi hdom hsub hval
    rw [getHandle_setDomain]
    rw [getHandle_replacementNotice (w.setDomain d (w.getDomain d)) d tx tx i hi]
    simp only [getHandle_setDomain]
    rw [if_pos ⟨hdom, hsub⟩]
    unfold DomainRestrictedVariable.replacementNotice
    rw [if_pos hval]
    exact ⟨rfl, rfl⟩

/-- Witness for C10 at a concrete world: replacing 2 by 2 in the domain
{1, 2, 3} returns true, removes 2, and leaves the handle bound to 2 dangling
on identity 1. -/
theorem C10_witness :
    (cw.replaceAllowedValue 0 2 2).2 = true ∧
    ((cw.replaceAllowedValue 0 2 2).1.getDomain 0).isAllowedValue 2 = false ∧
    ((cw.replaceAllowedValue 0 2 2).1.getHandle 0).m_value = some 1 ∧
    ((cw.replaceAllowedValue 0 2 2).1.getHandle 0).has_value = true := by
  obtain ⟨h1, h2, h3⟩ := C10_self_replacement cw 0 2 1 (by decide) (by decide)
  obtain ⟨h4, h5⟩ := h3 0 (by decide) (by decide) (by decide) (by decide)
  exact ⟨h1, h2, h4, h5⟩

theorem mem_insertVal (d : VariableDomain V) (v : V) (p : Nat × V)
    (hp : p ∈ d.m_allowed_values) : p ∈ (d.insertVal v).1.m_allowed_values := by
  cases hfind : d.findId v with
  | some t => rw [insertVal_present d v t hfind]; exact hp
  | none =>
    rw [insertVal_fresh d v hfind]
    exact List.mem_append_left _ hp

theorem lookupTok_insertVal_self (d : VariableDomain V) (hwf : DomainWF d)
    (v : V) : (d.insertVal v).1.lookupTok (d.insertVal v).2.1 = some v := by
  cases hfind : d.findId v with
  | some t =>
    rw [insertVal_present d v t hfind]
    exact lookupTok_of_mem d hwf t v (findId_some_mem d v t hfind)
  | none => exact lookupTok_insertVal_new d hwf v hfind

theorem insertVal_tok_ne (d : VariableDomain V) (hwf : DomainWF d)
    (old rep : V) (oldTok : Nat) (hne : old ≠ rep)
    (hold : d.findId old = some oldTok) : (d.insertVal rep).2.1 ≠ oldTok := by
  have hmemOld : (oldTok, old) ∈ d.m_allowed_values :=
    findId_some_mem d old oldTok hold
  cases hfind : d.findId rep with
  | some t =>
    rw [insertVal_present d rep t hfind]
    intro heq
    have hmemRep : (t, rep) ∈ d.m_allowed_values :=
      findId_some_mem d rep t hfind
    have := fst_inj_of_wf d hwf (t, rep) (oldTok, old) hmemRep hmemOld (by simpa using heq)
    simp at this
    exact hne (by rw [this.2])
  | none =>
    rw [insertVal_fresh d rep hfind]
    have := hwf.2.2 (oldTok, old) hmemOld
    dsimp only
    omega

/-- C2: replacing a present value old by a distinct value rep returns true
and is observably atomic: afterwards the domain contains rep and not old,
no subscribed handle of the domain references old's identity, and every
subscribed handle that did reference it now references rep's stored
identity, remaining non-empty with resolved value rep; when old is absent
the call returns false and changes nothing. -/
theorem C2_replace_atomic (w : World V) (d : Nat) (old rep : V)
    (hwf : WorldWF w) (hne : old ≠ rep) :
    ((w.getDomain d).findId old = none →
      w.replaceAllowedValue d old rep = (w, false)) ∧
    (∀ oldTok, (w.getDomain d).findId old = some oldTok →
      (w.replaceAllowedValue d old rep).2 = true ∧
      ((w.replaceAllowedValue d old rep).1.getDomain d).isAllowedValue rep = true ∧
      ((w.replaceAllowedValue d old rep).1.getDomain d).isAllowedValue old = false ∧
      ∀ i, i < w.handles.length →
        (w.getHandle i).m_domain = d → (w.getHandle i).subscribed = true →
        ((w.getHandle i).m_value = some oldTok →
          ((w.replaceAllowedValue d old rep).1.getHandle i).m_value =
            some ((w.getDomain d).insertVal rep).2.1 ∧
          (w.replaceAllowedValue d old rep).1.resolve i = some rep) ∧
        ((w.replaceAllowedValue d old rep).1.getHandle i).m_value ≠ some oldTok) := by
  constructor
  · intro habs
    exact replaceAllowedValue_of_absent w d old rep habs
  · intro oldTok hfind
    have hdlen : d < w.domains.length := getDomain_lt_of_findId w d old oldTok hfind
    have hdwf : DomainWF (w.getDomain d) := domainWF_getDomain w hwf d
    have hmemOld : (oldTok, old) ∈ (w.getDomain d).m_allowed_values :=
      findId_some_mem (w.getDomain d) old oldTok hfind
    have hwfIns : DomainWF ((w.getDomain d).insertVal rep).1 :=
      domainWF_insertVal (w.getDomain d) hdwf rep
    have htokne : ((w.getDomain d).insertVal rep).2.1 ≠ oldTok :=
      insertVal_tok_ne (w.getDomain d) hdwf old rep oldTok hne hfind
    have hmemRep : (((w.getDomain d).insertVal rep).2.1, rep) ∈
        ((w.getDomain d).insertVal rep).1.m_allowed_values :=
      findId_some_mem _ rep _ (findId_insertVal_self (w.getDomain d) rep)
    have hmemOldIns : (oldTok, old) ∈ ((w.getDomain d).insertVal rep).1.m_allowed_values :=
      mem_insertVal (w.getDomain d) rep _ hmemOld
    rw [replaceAllowedValue_of_found w d old rep oldTok hfind]
    dsimp only
    have hg2 : ((w.setDomain d ((w.getDomain d).insertVal rep).1).replacementNotice d
        oldTok ((w.getDomain d).insertVal rep).2.1).getDomain d =
        ((w.getDomain d).insertVal rep).1 :=
      getDomain_setDomain_self w d _ hdlen
    rw [hg2]
    have hgfin : ∀ ds : VariableDomain V,
        (((w.setDomain d ((w.getDomain d).insertVal rep).1).replacementNotice d
          oldTok ((w.getDomain d).insertVal rep).2.1).setDomain d ds).getDomain d = ds := by
      intro ds
      exact getDomain_setDomain_self _ d ds
        (by rw [replacementNotice_domains, length_domains_setDomain]; exact hdlen)
    refine ⟨rfl, ?_, ?_, ?_⟩
    · rw [hgfin]
      unfold VariableDomain.isAllowedValue
      rw [findId_eraseTok_other _ hwfIns oldTok _ rep htokne hmemRep]
      rfl
    · rw [hgfin]
      unfold VariableDomain.isAllowedValue
      rw [findId_eraseTok_self _ hwfIns oldTok old hmemOldIns]
      rfl
    · intro i hi hdom hsub
      have hgh : (((w.setDomain d ((w.getDomain d).insertVal rep).1).replacementNotice d
          oldTok ((w.getDomain d).insertVal rep).2.1).setDomain d
            ((((w.getDomain d).insertVal rep).1).eraseTok oldTok)).getHandle i =
          (w.getHandle i).replacementNotice oldTok ((w.getDomain d).insertVal rep).2.1 := by
        rw [getHandle_setDomain]
        rw [getHandle_replacementNotice (w.setDomain d ((w.getDomain d).insertVal rep).1)
          d oldTok ((w.getDomain d).insertVal rep).2.1 i hi]
        simp only [getHandle_setDomain]
        rw [if_pos ⟨hdom, hsub⟩]
      rw [hgh]
      unfold DomainRestrictedVariable.replacementNotice
      by_cases hval : (w.getHandle i).m_value = some oldTok
      · rw [if_pos hval]
        refine ⟨fun _ => ⟨rfl, ?_⟩, by simpa using fun h => htokne h⟩
        unfold World.resolve
        rw [hgh]
        unfold DomainRestrictedVariable.replacementNotice
        rw [if_pos hval]
        dsimp only
        rw [Option.some_bind]
        rw [hdom]
        rw [hgfin]
        rw [lookupTok_eraseTok_ne _ oldTok _ htokne]
        exact lookupTok_insertVal_self (w.getDomain d) hdwf rep
      · rw [if_neg hval]
        exact ⟨fun h => absurd h hval, hval⟩

/-- Witness for C2 at a concrete world: replacing 2 by 5 in the domain
{1, 2, 3} returns true, the handle bound to 2 is rebound to the fresh
identity of 5 and resolves to 5, and the domain contains 5 but not 2. -/
theorem C2_witness :
    (cw.replaceAllowedValue 0 2 5).2 = true ∧
    ((cw.replaceAllowedValue 0 2 5).1.getDomain 0).isAllowedValue 5 = true ∧
    ((cw.replaceAllowedValue 0 2 5).1.getDomain 0).isAllowedValue 2 = false ∧
    ((cw.replaceAllowedValue 0 2 5).1.getHandle 0).m_value =
      some ((cw.getDomain 0).insertVal 5).2.1 ∧
    (cw.replaceAllowedValue 0 2 5).1.resolve 0 = some 5 ∧
    ((cw.replaceAllowedValue 0 2 5).1.getHandle 1).m_value ≠ some 1 := by
  obtain ⟨-, h⟩ := C2_replace_atomic cw 0 2 5 (by decide) (by decide)
  obtain ⟨h1, h2, h3, h4⟩ := h 1 (by decide)
  obtain ⟨h5, -⟩ := h4 0 (by decide) (by decide) (by decide)
  obtain ⟨h6, h7⟩ := h5 (by decide)
  obtain ⟨-, h8⟩ := h4 1 (by decide) (by decide) (by decide)
  exact ⟨h1, h2, h3, h6, h7, h8⟩

/-- C4: when the replacement value already exists in the domain, its stored
identity is reused rather than duplicated: the domain afterwards is exactly
the original storage minus old's element, rep keeps its original identity,
and every subscribed handle previously bound to old now references that
single pre-existing element and resolves to rep. -/
theorem C4_replacement_merges_identity (w : World V) (d : Nat) (old rep : V)
    (oldTok repTok : Nat) (hwf : WorldWF w) (hne : old ≠ rep)
    (hold : (w.getDomain d).findId old = some oldTok)
    (hrep : (w.getDomain d).findId rep = some repTok) :
    (w.replaceAllowedValue d old rep).2 = true ∧
    ((w.replaceAllowedValue d old rep).1.getDomain d).m_allowed_values =
      (w.getDomain d).m_allowed_values.filter (fun p => ¬ p.1 = oldTok) ∧
    ((w.replaceAllowedValue d old rep).1.getDomain d).findId rep = some repTok ∧
    ∀ i, i < w.handles.length →
      (w.getHandle i).m_domain = d → (w.getHandle i).subscribed = true →
      (w.getHandle i).m_value = some oldTok →
      ((w.replaceAllowedValue d old rep).1.getHandle i).m_value = some repTok ∧
      (w.replaceAllowedValue d old rep).1.resolve i = some rep := by
  have hdlen : d < w.domains.length := getDomain_lt_of_findId w d old oldTok hold
  have hdwf : DomainWF (w.getDomain d) := domainWF_getDomain w hwf d
  have hmemOld : (oldTok, old) ∈ (w.getDomain d).m_allowed_values :=
    findId_some_mem (w.getDomain d) old oldTok hold
  have hmemRep : (repTok, rep) ∈ (w.getDomain d).m_allowed_values :=
    findId_some_mem (w.getDomain d) rep repTok hrep
  have htokne : repTok ≠ oldTok := by
    intro heq
    have := fst_inj_of_wf (w.getDomain d) hdwf (repTok, rep) (oldTok, old)
      hmemRep hmemOld (by simpa using heq)
    simp at this
    exact hne (by rw [this.2])
  rw [replaceAllowedValue_of_found w d old rep oldTok hold,
    insertVal_present (w.getDomain d) rep repTok hrep]
  dsimp only
  have hg2 : ((w.setDomain d (w.getDomain d)).replacementNotice d oldTok
      repTok).getDomain d = w.getDomain d :=
    getDomain_setDomain_self w d _ hdlen
  rw [hg2]
  have hgfin : ∀ ds : VariableDomain V,
      (((w.setDomain d (w.getDomain d)).replacementNotice d oldTok
        repTok).setDomain d ds).getDomain d = ds := by
    intro ds
    exact getDomain_setDomain_self _ d ds
      (by rw [replacementNotice_domains, length_domains_setDomain]; exact hdlen)
  refine ⟨rfl, ?_, ?_, ?_⟩
  · rw [hgfin]
    rfl
  · rw [hgfin]
    exact findId_eraseTok_other (w.getDomain d) hdwf oldTok repTok rep htokne hmemRep
  · intro i hi hdom hsub hval
    have hgh : (((w.setDomain d (w.getDomain d)).replacementNotice d oldTok
        repTok).setDomain d ((w.getDomain d).eraseTok oldTok)).getHandle i =
        (w.getHandle i).replacementNotice oldTok repTok := by
      rw [getHandle_setDomain]
      rw [getHandle_replacementNotice (w.setDomain d (w.getDomain d)) d oldTok repTok i hi]
      simp only [getHandle_setDomain]
      rw [if_pos ⟨hdom, hsub⟩]
    rw [hgh]
    unfold DomainRestrictedVariable.replacementNotice
    rw [if_pos hval]
    refine ⟨rfl, ?_⟩
    unfold World.resolve
    rw [hgh]
    unfold DomainRestrictedVariable.replacementNotice
    rw [if_pos hval]
    dsimp only
    rw [Option.some_bind]
    rw [hdom]
    rw [hgfin]
    rw [lookupTok_eraseTok_ne _ oldTok _ htokne]
    exact lookupTok_of_mem (w.getDomain d) hdwf repTok rep hmemRep

/-- Witness for C4 at a concrete world: replacing 2 by the already present 3
in {1, 2, 3} keeps 3 under its original identity 2, the handle that was
bound to 2 now references that element and resolves to 3, and the storage is
the original minus 2's element. -/
theorem C4_witness :
    (cw.replaceAllowedValue 0 2 3).2 = true ∧
    ((cw.replaceAllowedValue 0 2 3).1.getDomain 0).m_allowed_values =
      (cw.getDomain 0).m_allowed_values.filter (fun p => ¬ p.1 = 1) ∧
    ((cw.replaceAllowedValue 0 2 3).1.getDomain 0).findId 3 = some 2 ∧
    ((cw.replaceAllowedValue 0 2 3).1.getHandle 0).m_value = some 2 ∧
    (cw.replaceAllowedValue 0 2 3).1.resolve 0 = some 3 := by
  obtain ⟨h1, h2, h3, h4⟩ :=
    C4_replacement_merges_identity cw 0 2 3 1 2 (by decide) (by decide)
      (by decide) (by decide)
  obtain ⟨h5, h6⟩ := h4 0 (by decide) (by decide) (by decide) (by decide)
  exact ⟨h1, h2, h3, h5, h6⟩

theorem getHandle_mem (w : World V) (i : Nat) (hi : i < w.handles.length) :
    w.getHandle i ∈ w.handles := by
  unfold World.getHandle
  rw [List.getD_eq_getElem w.handles _ hi]
  exact List.getElem_mem hi

theorem resolve_components (w : World V) (i t : Nat)
    (hv : (w.getHandle i).m_value = some t) :
    w.resolve i = (w.getDomain (w.getHandle i).m_domain).lookupTok t := by
  unfold World.resolve
  rw [hv, Option.some_bind]

/-- C8: a handle whose slot references a stored value other than the value
being removed or replaced is completely untouched by removeAllowedValue and
replaceAllowedValue: its slot, emptiness and resolved value are unchanged. -/
theorem C8_unrelated_handles_unaffected (w : World V) (d : Nat) (v rep : V)
    (i : Nat) (u : V) (hwf : WorldWF w) (hi : i < w.handles.length)
    (hres : w.resolve i = some u) (hneq : u ≠ v) :
    ((w.removeAllowedValue d v).1.getHandle i = w.getHandle i ∧
     (w.removeAllowedValue d v).1.resolve i = some u) ∧
    ((w.replaceAllowedValue d v rep).1.getHandle i = w.getHandle i ∧
     (w.replaceAllowedValue d v rep).1.resolve i = some u) := by
  cases hv : (w.getHandle i).m_value with
  | none =>
    unfold World.resolve at hres
    rw [hv] at hres
    simp at hres
  | some t =>
  have hlook : (w.getDomain (w.getHandle i).m_domain).lookupTok t = some u := by
    rw [resolve_components w i t hv] at hres
    exact hres
  cases hfind : (w.getDomain d).findId v with
  | none =>
    rw [removeAllowedValue_of_absent w d v hfind,
      replaceAllowedValue_of_absent w d v rep hfind]
    exact ⟨⟨rfl, hres⟩, ⟨rfl, hres⟩⟩
  | some tok =>
  have hdlen : d < w.domains.length := getDomain_lt_of_findId w d v tok hfind
  have hdwf : DomainWF (w.getDomain d) := domainWF_getDomain w hwf d
  have hmemv : (tok, v) ∈ (w.getDomain d).m_allowed_values :=
    findId_some_mem (w.getDomain d) v tok hfind
  have htne : (w.getHandle i).m_domain = d → t ≠ tok := by
    intro hdd heq
    rw [hdd, heq, lookupTok_of_mem (w.getDomain d) hdwf tok v hmemv] at hlook
    have : v = u := by injection hlook
    exact hneq (by rw [this])
  have hhwf : HandleWF w (w.getHandle i) := hwf.2 _ (getHandle_mem w i hi)
  have htlt : (w.getHandle i).m_domain = d → t < (w.getDomain d).nextId := by
    intro hdd
    have := hhwf t (by simp [hv])
    rw [hdd] at this
    exact this
  constructor
  · -- removal
    rw [removeAllowedValue_of_found w d v tok hfind]
    dsimp only
    have hgh : ((w.deletionNotice d tok).setDomain d
        (((w.deletionNotice d tok).getDomain d).eraseTok tok)).getHandle i =
        w.getHandle i := by
      rw [getHandle_setDomain, getHandle_deletionNotice w d tok i hi]
      by_cases c1 : (w.getHandle i).m_domain = d ∧ (w.getHandle i).subscribed = true
      · rw [if_pos c1]
        unfold DomainRestrictedVariable.deletionNotice
        rw [if_neg (by rw [hv]; simpa using htne c1.1)]
      · rw [if_neg c1]
    refine ⟨hgh, ?_⟩
    rw [resolve_components _ i t (by rw [hgh]; exact hv)]
    rw [hgh]
    by_cases hdd : (w.getHandle i).m_domain = d
    · rw [hdd]
      rw [getDomain_setDomain_self (w.deletionNotice d tok) d _ hdlen]
      have hdel : (w.deletionNotice d tok).getDomain d = w.getDomain d := rfl
      rw [hdel]
      rw [lookupTok_eraseTok_ne _ tok t (htne hdd)]
      rw [hdd] at hlook
      exact hlook
    · rw [getDomain_setDomain_ne (w.deletionNotice d tok) d _ _
        (fun h => hdd h.symm)]
      exact hlook
  · -- replacement
    rw [replaceAllowedValue_of_found w d v rep tok hfind]
    dsimp only
    have hg2 : ((w.setDomain d ((w.getDomain d).insertVal rep).1).replacementNotice d
        tok ((w.getDomain d).insertVal rep).2.1).getDomain d =
        ((w.getDomain d).insertVal rep).1 :=
      getDomain_setDomain_self w d _ hdlen
    rw [hg2]
    have hgh : (((w.setDomain d ((w.getDomain d).insertVal rep).1).replacementNotice d
        tok ((w.getDomain d).insertVal rep).2.1).setDomain d
          ((((w.getDomain d).insertVal rep).1).eraseTok tok)).getHandle i =
        w.getHandle i := by
      rw [getHandle_setDomain,
        getHandle_replacementNotice (w.setDomain d ((w.getDomain d).insertVal rep).1)
          d tok ((w.getDomain d).insertVal rep).2.1 i hi]
      simp only [getHandle_setDomain]
      by_cases c1 : (w.getHandle i).m_domain = d ∧ (w.getHandle i).subscribed = true
      · rw [if_pos c1]
        unfold DomainRestrictedVariable.replacementNotice
        rw [if_neg (by rw [hv]; simpa using htne c1.1)]
      · rw [if_neg c1]
    refine ⟨hgh, ?_⟩
    rw [resolve_components _ i t (by rw [hgh]; exact hv)]
    rw [hgh]
    by_cases hdd : (w.getHandle i).m_domain = d
    · rw [hdd]
      rw [getDomain_setDomain_self
        ((w.setDomain d ((w.getDomain d).insertVal rep).1).replacementNotice d
          tok ((w.getDomain d).insertVal rep).2.1) d _
        (by rw [replacementNotice_domains, length_domains_setDomain]; exact hdlen)]
      rw [lookupTok_eraseTok_ne _ tok t (htne hdd)]
      rw [lookupTok_insertVal_old (w.getDomain d) rep t (htlt hdd)]
      rw [hdd] at hlook
      exact hlook
    · rw [getDomain_setDomain_ne _ d _ _ (fun h => hdd h.symm)]
      have : ((w.setDomain d ((w.getDomain d).insertVal rep).1).replacementNotice d
          tok ((w.getDomain d).insertVal rep).2.1).getDomain
            (w.getHandle i).m_domain = w.getDomain (w.getHandle i).m_domain :=
        getDomain_setDomain_ne w d _ _ (fun h => hdd h.symm)
      rw [this]
      exact hlook

/-- Witness for C8 at a concrete world: the handle bound to value 1 is
untouched by removal of 2 and by replacement of 2 with 5. -/
theorem C8_witness :
    ((cw.removeAllowedValue 0 2).1.getHandle 1 = cw.getHandle 1 ∧
     (cw.removeAllowedValue 0 2).1.resolve 1 = some 1) ∧
    ((cw.replaceAllowedValue 0 2 5).1.getHandle 1 = cw.getHandle 1 ∧
     (cw.replaceAllowedValue 0 2 5).1.resolve 1 = some 1) :=
  C8_unrelated_handles_unaffected cw 0 2 5 1 1 (by decide) (by decide)
    (by decide) (by decide)

/-- C6: move construction and move assignment transfer the slot identity and
the domain binding to the destination handle; the source ends up empty
(has_value false) and out of its original domain's subscriber registry, while
the destination is subscribed there and is the one that undergoes any
subsequent deletion or replacement notice of that domain. -/
theorem C6_move_transfers (w : World V) (i j : Nat) (hij : i ≠ j)
    (hi : i < w.handles.length) (hj : j < w.handles.length) :
    ((w.moveConstruct j).1.getHandle (w.moveConstruct j).2 =
       ⟨(w.getHandle j).m_domain, (w.getHandle j).m_value, true⟩ ∧
     (w.moveConstruct j).1.getHandle j =
       ⟨(w.getHandle j).m_domain, none, false⟩ ∧
     ((w.moveConstruct j).1.getHandle j).has_value = false ∧
     (w.moveConstruct j).1.isSubscriberOf (w.moveConstruct j).2
       (w.getHandle j).m_domain ∧
     ¬ (w.moveConstruct j).1.isSubscriberOf j (w.getHandle j).m_domain) ∧
    ((w.moveAssign i j).getHandle i =
       ⟨(w.getHandle j).m_domain, (w.getHandle j).m_value, true⟩ ∧
     (w.moveAssign i j).getHandle j =
       ⟨(w.getHandle j).m_domain, none, false⟩ ∧
     ((w.moveAssign i j).getHandle j).has_value = false ∧
     (w.moveAssign i j).isSubscriberOf i (w.getHandle j).m_domain ∧
     ¬ (w.moveAssign i j).isSubscriberOf j (w.getHandle j).m_domain) ∧
    (∀ tok,
      ((w.moveConstruct j).1.deletionNotice (w.getHandle j).m_domain tok).getHandle
          (w.moveConstruct j).2 =
        (⟨(w.getHandle j).m_domain, (w.getHandle j).m_value, true⟩ :
          DomainRestrictedVariable).deletionNotice tok) ∧
    (∀ oldTok newTok,
      ((w.moveConstruct j).1.replacementNotice (w.getHandle j).m_domain oldTok
          newTok).getHandle (w.moveConstruct j).2 =
        (⟨(w.getHandle j).m_domain, (w.getHandle j).m_value, true⟩ :
          DomainRestrictedVariable).replacementNotice oldTok newTok) := by
  have hji : j ≠ i := fun h => hij h.symm
  have hjlen : j ≠ w.handles.length := by omega
  have hmc2 : (w.moveConstruct j).2 = w.handles.length := rfl
  have hmcLen : (w.moveConstruct j).1.handles.length = w.handles.length + 1 := by
    unfold World.moveConstruct
    dsimp only
    rw [length_updHandle]
    simp
  have hmcNew : (w.moveConstruct j).1.getHandle w.handles.length =
      ⟨(w.getHandle j).m_domain, (w.getHandle j).m_value, true⟩ := by
    unfold World.moveConstruct
    dsimp only
    rw [getHandle_updHandle_ne _ j w.handles.length _ hjlen]
    unfold World.getHandle
    exact getD_append_len w.handles _ _
  have hmcSrc : (w.moveConstruct j).1.getHandle j =
      ⟨(w.getHandle j).m_domain, none, false⟩ := by
    unfold World.moveConstruct
    dsimp only
    rw [getHandle_updHandle_self _ j _ (by simp; omega)]
    have : ({ w with handles := w.handles ++
        [⟨(w.getHandle j).m_domain, (w.getHandle j).m_value, true⟩] } :
          World V).getHandle j = w.getHandle j := by
      unfold World.getHandle
      exact getD_append_left w.handles _ j _ hj
    rw [this]
  have len2 : ∀ (f₁ f₂ : DomainRestrictedVariable → DomainRestrictedVariable),
      ((w.updHandle i f₁).updHandle j f₂).handles.length = w.handles.length := by
    intro f₁ f₂
    rw [length_updHandle, length_updHandle]
  have e2 : ∀ (f₁ f₂ : DomainRestrictedVariable → DomainRestrictedVariable),
      ((w.updHandle i f₁).updHandle j f₂).getHandle j = f₂ (w.getHandle j) := by
    intro f₁ f₂
    rw [getHandle_updHandle_self _ j _ (by rw [length_updHandle]; exact hj),
      getHandle_updHandle_ne w i j _ hij]
  have e3 : ∀ (f₁ f₂ f₃ : DomainRestrictedVariable → DomainRestrictedVariable),
      (((w.updHandle i f₁).updHandle j f₂).updHandle i f₃).getHandle j =
        f₂ (w.getHandle j) := by
    intro f₁ f₂ f₃
    rw [getHandle_updHandle_ne _ i j _ hij, e2]
  have e5 : ∀ (f₁ f₂ : DomainRestrictedVariable → DomainRestrictedVariable),
      ((w.updHandle i f₁).updHandle j f₂).getHandle i = f₁ (w.getHandle i) := by
    intro f₁ f₂
    rw [getHandle_updHandle_ne _ j i _ hji,
      getHandle_updHandle_self w i _ hi]
  have e6 : ∀ (f₁ f₂ f₃ f₄ : DomainRestrictedVariable → DomainRestrictedVariable),
      ((((w.updHandle i f₁).updHandle j f₂).updHandle i f₃).updHandle i
        f₄).getHandle i = f₄ (f₃ (f₁ (w.getHandle i))) := by
    intro f₁ f₂ f₃ f₄
    rw [getHandle_updHandle_self _ i _ (by rw [length_updHandle, len2]; exact hi)]
    rw [getHandle_updHandle_self _ i _ (by rw [len2]; exact hi)]
    rw [e5]
  have e7 : ∀ (f₁ f₂ f₃ f₄ f₅ : DomainRestrictedVariable → DomainRestrictedVariable),
      (((((w.updHandle i f₁).updHandle j f₂).updHandle i f₃).updHandle i
        f₄).updHandle j f₅).getHandle i = f₄ (f₃ (f₁ (w.getHandle i))) := by
    intro f₁ f₂ f₃ f₄ f₅
    rw [getHandle_updHandle_ne _ j i _ hji, e6]
  have e8 : ∀ (f₁ f₂ f₃ f₄ f₅ : DomainRestrictedVariable → DomainRestrictedVariable),
      (((((w.updHandle i f₁).updHandle j f₂).updHandle i f₃).updHandle i
        f₄).updHandle j f₅).getHandle j = f₅ (f₂ (w.getHandle j)) := by
    intro f₁ f₂ f₃ f₄ f₅
    rw [getHandle_updHandle_self _ j _
      (by rw [length_updHandle, length_updHandle, len2]; exact hj)]
    rw [getHandle_updHandle_ne _ i j _ hij, e3]
  refine ⟨⟨by rw [hmc2, hmcNew], hmcSrc, by rw [hmcSrc]; rfl, ?_, ?_⟩, ?_, ?_, ?_⟩
  · unfold World.isSubscriberOf
    rw [hmc2, hmcNew]
    exact ⟨rfl, rfl⟩
  · unfold World.isSubscriberOf
    rw [hmcSrc]
    rintro ⟨-, h⟩
    simp at h
  · unfold World.moveAssign World.isSubscriberOf
    dsimp only
    rw [e7, e8]
    dsimp only
    rw [e2, e3]
    dsimp only
    refine ⟨rfl, rfl, rfl, ⟨rfl, rfl⟩, ?_⟩
    rintro ⟨-, h⟩
    simp at h
  · intro tok
    rw [hmc2]
    rw [getHandle_deletionNotice _ _ tok _ (by rw [hmcLen]; omega)]
    rw [hmcNew]
    rw [if_pos ⟨rfl, rfl⟩]
  · intro oldTok newTok
    rw [hmc2]
    rw [getHandle_replacementNotice _ _ oldTok newTok _ (by rw [hmcLen]; omega)]
    rw [hmcNew]
    rw [if_pos ⟨rfl, rfl⟩]

/-- Witness for C6 at a concrete world: moving handle 0 (bound to value 2)
into a fresh handle and into handle 1. -/
theorem C6_witness :
    ((cw.moveConstruct 0).1.getHandle (cw.moveConstruct 0).2 =
       ⟨(cw.getHandle 0).m_domain, (cw.getHandle 0).m_value, true⟩ ∧
     (cw.moveConstruct 0).1.getHandle 0 =
       ⟨(cw.getHandle 0).m_domain, none, false⟩ ∧
     ((cw.moveConstruct 0).1.getHandle 0).has_value = false ∧
     (cw.moveConstruct 0).1.isSubscriberOf (cw.moveConstruct 0).2
       (cw.getHandle 0).m_domain ∧
     ¬ (cw.moveConstruct 0).1.isSubscriberOf 0 (cw.getHandle 0).m_domain) ∧
    ((cw.moveAssign 1 0).getHandle 1 =
       ⟨(cw.getHandle 0).m_domain, (cw.getHandle 0).m_value, true⟩ ∧
     (cw.moveAssign 1 0).getHandle 0 =
       ⟨(cw.getHandle 0).m_domain, none, false⟩ ∧
     ((cw.moveAssign 1 0).getHandle 0).has_value = false ∧
     (cw.moveAssign 1 0).isSubscriberOf 1 (cw.getHandle 0).m_domain ∧
     ¬ (cw.moveAssign 1 0).isSubscriberOf 0 (cw.getHandle 0).m_domain) ∧
    (∀ tok,
      ((cw.moveConstruct 0).1.deletionNotice (cw.getHandle 0).m_domain tok).getHandle
          (cw.moveConstruct 0).2 =
        (⟨(cw.getHandle 0).m_domain, (cw.getHandle 0).m_value, true⟩ :
          DomainRestrictedVariable).deletionNotice tok) ∧
    (∀ oldTok newTok,
      ((cw.moveConstruct 0).1.replacementNotice (cw.getHandle 0).m_domain oldTok
          newTok).getHandle (cw.moveConstruct 0).2 =
        (⟨(cw.getHandle 0).m_domain, (cw.getHandle 0).m_value, true⟩ :
          DomainRestrictedVariable).replacementNotice oldTok newTok) :=
  C6_move_transfers cw 1 0 (by decide) (by decide) (by decide)
